import Mathlib

/-!
Shallow embedding of the cgroupv2 monitoring package (Go).

The two file-reading operations `readCPU` and `readMemory` are modelled as
pure functions of the already-performed file reads: each `readFile` result is
an `Except String (List Char)` (error message, or the trimmed file contents as
a character list), and the current wall-clock time is an integer count of
nanoseconds, matching Go's `time.Time`/`time.Duration` representation
(realistic timestamps are far from the int64 bounds, so overflow is not
modelled).  Go `float64` values are modelled by `GFloat`: exact rationals
extended with the IEEE-754 infinities and NaN, so that a division by zero is
observable in the result instead of being idealised away.
-/

/-- Go `float64`, idealised: finite values are exact rationals, plus the two
infinities and NaN so that IEEE division by zero is representable. -/
inductive GFloat where
  | fin (q : ℚ)
  | inf (neg : Bool)
  | nan
deriving DecidableEq

/-- IEEE-754 style division on the idealised floats: finite / 0 gives an
infinity (or NaN for 0 / 0), everything involving NaN is NaN. -/
def GFloat.div : GFloat → GFloat → GFloat
  | .nan, _ => .nan
  | _, .nan => .nan
  | .inf _, .inf _ => .nan
  | .inf s, .fin q => if q < 0 then .inf (!s) else .inf s
  | .fin _, .inf _ => .fin 0
  | .fin a, .fin b =>
    if b = 0 then (if a = 0 then .nan else .inf (decide (a < 0)))
    else .fin (a / b)

/-- IEEE-754 style multiplication on the idealised floats. -/
def GFloat.mul : GFloat → GFloat → GFloat
  | .nan, _ => .nan
  | _, .nan => .nan
  | .inf s, .inf t => .inf (s != t)
  | .inf s, .fin q => if q = 0 then .nan else .inf (s != decide (q < 0))
  | .fin q, .inf s => if q = 0 then .nan else .inf (s != decide (q < 0))
  | .fin a, .fin b => .fin (a * b)

/-- `true` exactly on the finite (non-infinite, non-NaN) floats. -/
def GFloat.isFinite : GFloat → Bool
  | .fin _ => true
  | _ => false

/-- The whitespace characters recognised by Go's `strings.Fields`
(`unicode.IsSpace`); the payloads in question are ASCII, for which these six
are exactly the space characters. -/
def goIsSpace (c : Char) : Bool :=
  c = ' ' || c = '\t' || c = '\n' || c = '\x0b' || c = '\x0c' || c = '\r'

/-- Accumulator loop for `goFields`: splits a character list around runs of
whitespace, producing the non-empty maximal runs of non-space characters. -/
def goFieldsAux : List Char → List Char → List (List Char)
  | [], acc => if acc.isEmpty then [] else [acc.reverse]
  | c :: rest, acc =>
    if goIsSpace c then
      if acc.isEmpty then goFieldsAux rest [] else acc.reverse :: goFieldsAux rest []
    else goFieldsAux rest (c :: acc)

/-- Go `strings.Fields`. -/
def goFields (s : List Char) : List (List Char) := goFieldsAux s []

/-- Accumulator loop for `goSplitLines`. -/
def goSplitAux (sep : Char) : List Char → List Char → List (List Char)
  | [], acc => [acc.reverse]
  | c :: rest, acc =>
    if c = sep then acc.reverse :: goSplitAux sep rest []
    else goSplitAux sep rest (c :: acc)

/-- Go `strings.Split(s, "\n")`. -/
def goSplitLines (s : List Char) : List (List Char) := goSplitAux '\n' s []

/-- The numeric value of a non-empty all-digit string, `none` otherwise.
Shared digit loop of Go's `strconv.ParseUint`/`ParseInt` in base 10 (which
admit no underscores and, for `ParseUint`, no sign). -/
def goDigits (s : List Char) : Option ℕ :=
  if s.isEmpty then none
  else if s.all Char.isDigit then
    some (s.foldl (fun a c => a * 10 + (c.toNat - 48)) 0)
  else none

/-- Go `strconv.ParseUint(s, 10, 64)`: digits only, value below `2^64`
(an out-of-range value is an error to the caller). -/
def parseUint64 (s : List Char) : Option ℕ :=
  match goDigits s with
  | none => none
  | some v => if v < 2 ^ 64 then some v else none

/-- Go `strconv.ParseInt(s, 10, 64)`: optional sign, digits, int64 range. -/
def parseInt64 (s : List Char) : Option ℤ :=
  let body : Bool × List Char :=
    match s with
    | '-' :: rest => (true, rest)
    | '+' :: rest => (false, rest)
    | _ => (false, s)
  match goDigits body.2 with
  | none => none
  | some v =>
    if body.1 then (if v ≤ 2 ^ 63 then some (-(v : ℤ)) else none)
    else (if v < 2 ^ 63 then some (v : ℤ) else none)

/-- Go `time.Duration.Microseconds()`: nanoseconds divided by 1000,
truncating toward zero (Go integer division). -/
def goDurationMicroseconds (d : ℤ) : ℤ :=
  if 0 ≤ d then ((d.toNat / 1000 : ℕ) : ℤ)
  else -(((-d).toNat / 1000 : ℕ) : ℤ)

/-- The `unlimitedValue` constant, `"max"`. -/
def unlimitedValue : List Char := ['m', 'a', 'x']

/-- The session state of a `Monitor` (the `cgroupPath` configuration and the
mutex are externalised: the path only selects which files are read, and the
lock serialises calls, which the claims treat one at a time). -/
structure Monitor where
  lastCPUUsageUsec : ℕ
  lastCPUSampleTime : ℤ
  hasBaseline : Bool
deriving DecidableEq

/-- `NewMonitor`: all session fields start at their Go zero values. -/
def NewMonitor : Monitor := ⟨0, 0, false⟩

/-- The prefix scanned for in `cpu.stat` lines, `"usage_usec "`. -/
def usageUsecKey : List Char :=
  ['u', 's', 'a', 'g', 'e', '_', 'u', 's', 'e', 'c', ' ']

/-- The `for _, line := range strings.Split(content, "\n")` loop of
`parseCPUStatUsage`: a line failing the prefix test, the two-field test or
the integer parse is skipped (`continue`); the first line passing all three
yields its value; falling off the end yields 0. -/
def cpuStatLoop : List (List Char) → ℕ
  | [] => 0
  | line :: rest =>
    if !(usageUsecKey.isPrefixOf line) then cpuStatLoop rest
    else
      match goFields line with
      | [_, p1] =>
        match parseUint64 p1 with
        | some v => v
        | none => cpuStatLoop rest
      | _ => cpuStatLoop rest

/-- `parseCPUStatUsage`: scan the lines of `cpu.stat` for a well-formed
`usage_usec <uint>` line. -/
def parseCPUStatUsage (content : List Char) : ℕ :=
  cpuStatLoop (goSplitLines content)

/-- The result of `readCPU`: `(percent, limitCores, err)` plus the monitor
state after the call. -/
structure CPUResult where
  percent : GFloat
  limitCores : GFloat
  err : Option String
  state : Monitor
deriving DecidableEq

/-- The limit-descriptor guards of `readCPU` (the `cpu.max` half): `none`
stands for every early `return 0, 0, nil` — wrong field count, the `max`
sentinel, an unparsable or non-positive quota, an unparsable or zero
period — and `some` carries `cpuLimitCores = quota / period`. -/
def parseCpuLimitCores (cpuMax : List Char) : Option ℚ :=
  match goFields cpuMax with
  | [p0, p1] =>
    if p0 = unlimitedValue then none
    else
      match parseInt64 p0 with
      | none => none
      | some quota =>
        if quota ≤ 0 then none
        else
          match parseInt64 p1 with
          | none => none
          | some period =>
            if period = 0 then none
            else some ((quota : ℚ) / (period : ℚ))
  | _ => none

/-- The sampling half of `readCPU`, after `cpu.stat` was read and the usage
counter parsed: baseline establishment, counter-reset handling, the
`timeDelta == 0` guard (in nanoseconds), and the percentage computation
dividing by `timeDelta.Microseconds()`. -/
def sampleCPU (cpuLimitCores : ℚ) (usageUsec : ℕ) (now : ℤ) (m : Monitor) :
    CPUResult :=
  if !m.hasBaseline then
    ⟨.fin 0, .fin cpuLimitCores, none, ⟨usageUsec, now, true⟩⟩
  else if usageUsec < m.lastCPUUsageUsec then
    ⟨.fin 0, .fin cpuLimitCores, none, ⟨usageUsec, now, m.hasBaseline⟩⟩
  else
    let usageDelta : ℚ := ((usageUsec - m.lastCPUUsageUsec : ℕ) : ℚ)
    let timeDelta : ℤ := now - m.lastCPUSampleTime
    if timeDelta = 0 then ⟨.fin 0, .fin cpuLimitCores, none, m⟩
    else
      let elapsedUsec : ℚ := ((goDurationMicroseconds timeDelta : ℤ) : ℚ)
      let coresUsed := GFloat.div (.fin usageDelta) (.fin elapsedUsec)
      let cpuPercent :=
        GFloat.mul (GFloat.div coresUsed (.fin cpuLimitCores)) (.fin 100)
      ⟨cpuPercent, .fin cpuLimitCores, none, ⟨usageUsec, now, m.hasBaseline⟩⟩

/-- `readCPU`, as a pure function of the two file-read results
(`cpu.max` and `cpu.stat`), the current time in nanoseconds, and the
incoming monitor state. -/
def readCPU (cpuMaxRes cpuStatRes : Except String (List Char)) (now : ℤ)
    (m : Monitor) : CPUResult :=
  match cpuMaxRes with
  | .error e => ⟨.fin 0, .fin 0, some e, m⟩
  | .ok cpuMax =>
    match parseCpuLimitCores cpuMax with
    | none => ⟨.fin 0, .fin 0, none, m⟩
    | some cpuLimitCores =>
      match cpuStatRes with
      | .error e => ⟨.fin 0, .fin cpuLimitCores, some e, m⟩
      | .ok cpuStat => sampleCPU cpuLimitCores (parseCPUStatUsage cpuStat) now m

/-- The result of `readMemory`: `(percent, currentBytes, limitBytes, err)`. -/
structure MemResult where
  percent : GFloat
  bytes : ℕ
  limit : ℕ
  err : Option String
deriving DecidableEq

/-- `readMemory`, as a pure function of the two file-read results
(`memory.max` and `memory.current`); it is stateless. -/
def readMemory (memMaxRes memCurrentRes : Except String (List Char)) : MemResult :=
  match memMaxRes with
  | .error e => ⟨.fin 0, 0, 0, some e⟩
  | .ok memMax =>
    if memMax = unlimitedValue then ⟨.fin 0, 0, 0, none⟩
    else
      match parseUint64 memMax with
      | none => ⟨.fin 0, 0, 0, none⟩
      | some memLimit =>
        match memCurrentRes with
        | .error e => ⟨.fin 0, 0, memLimit, some e⟩
        | .ok memCurrent =>
          match parseUint64 memCurrent with
          | none => ⟨.fin 0, 0, memLimit, none⟩
          | some memBytes =>
            let memPercent :=
              GFloat.mul (GFloat.div (.fin (memBytes : ℚ)) (.fin (memLimit : ℚ)))
                (.fin 100)
            ⟨memPercent, memBytes, memLimit, none⟩

/-- Spec-side reading of one `cpu.stat` line ("the one prefixed
`usage_usec `", well-formed): its counter value, `none` when the line lacks
the prefix, has a field count other than two, or has an unparsable value.
Used to state the refinement claim about `parseCPUStatUsage`. -/
def usageLineValue (line : List Char) : Option ℕ :=
  if usageUsecKey.isPrefixOf line then
    match goFields line with
    | [_, p1] => parseUint64 p1
    | _ => none
  else none

/-- `true` exactly when a `readCPU` call with these two file-read results
gets past the limit guards and the `cpu.stat` read, i.e. reaches the stateful
sampling stage. -/
def reachesSampling (cpuMaxRes cpuStatRes : Except String (List Char)) : Bool :=
  match cpuMaxRes, cpuStatRes with
  | .ok cpuMax, .ok _ => (parseCpuLimitCores cpuMax).isSome
  | _, _ => false

theorem parseUint64_unlimited : parseUint64 unlimitedValue = none := by decide

theorem parseInt64_unlimited : parseInt64 unlimitedValue = none := by decide

/-- C6: a `memory.max` payload equal to the `max` sentinel or failing to
parse yields `(0, 0, 0, nil)`; a parsed limit whose `memory.current` payload
fails to parse yields `(0, 0, limit, nil)`. -/
theorem readMemory_lenient_errors :
    (∀ b, readMemory (.ok unlimitedValue) b = ⟨.fin 0, 0, 0, none⟩)
    ∧ (∀ s b, parseUint64 s = none →
        readMemory (.ok s) b = ⟨.fin 0, 0, 0, none⟩)
    ∧ (∀ s cur L, parseUint64 s = some L → parseUint64 cur = none →
        readMemory (.ok s) (.ok cur) = ⟨.fin 0, 0, L, none⟩) := by
  refine ⟨fun b => by simp [readMemory], fun s b h => ?_, fun s cur L hL hcur => ?_⟩
  · by_cases hs : s = unlimitedValue
    · subst hs; simp [readMemory]
    · simp [readMemory, hs, h]
  · have hs : s ≠ unlimitedValue := by
      intro hs; rw [hs, parseUint64_unlimited] at hL; exact Option.noConfusion hL
    simp [readMemory, hs, hL, hcur]

/-- C7: for a parsed memory limit `L > 0` and parsed usage `U`, `readMemory`
returns exactly `percent = U / L * 100`, `bytes = U`, `limit = L`. -/
theorem readMemory_percent_exact (s cur : List Char) (L U : ℕ)
    (hL : parseUint64 s = some L) (hpos : 0 < L)
    (hU : parseUint64 cur = some U) :
    readMemory (.ok s) (.ok cur) =
      ⟨.fin ((U : ℚ) / (L : ℚ) * 100), U, L, none⟩ := by
  have hs : s ≠ unlimitedValue := by
    intro hs; rw [hs, parseUint64_unlimited] at hL; exact Option.noConfusion hL
  have hLq : ((L : ℚ)) ≠ 0 := Nat.cast_ne_zero.mpr hpos.ne'
  simp [readMemory, hs, hL, hU, GFloat.div, GFloat.mul, hLq]

/-- Witness for C7 at the spec's end-to-end example:
`memory.max = 2147483648`, `memory.current = 1073741824` gives exactly
50 percent. -/
theorem readMemory_percent_exact_witness :
    readMemory (.ok "2147483648".data) (.ok "1073741824".data) =
      ⟨.fin 50, 1073741824, 2147483648, none⟩ := by
  have h := readMemory_percent_exact ("2147483648".data) ("1073741824".data)
    2147483648 1073741824 (by decide) (by decide) (by decide)
  rw [h]
  norm_num

/-- C8: a usage-file read failure after the limit was computed propagates the
error and still carries the computed limit: `readCPU` returns
`(0, limitCores, err)` on a `cpu.stat` failure, `readMemory` returns
`(0, 0, limit, err)` on a `memory.current` failure. -/
theorem read_failure_carries_partial_limit :
    (∀ s L now m e, parseCpuLimitCores s = some L →
        readCPU (.ok s) (.error e) now m = ⟨.fin 0, .fin L, some e, m⟩)
    ∧ (∀ s L e, parseUint64 s = some L →
        readMemory (.ok s) (.error e) = ⟨.fin 0, 0, L, some e⟩) := by
  constructor
  · intro s L now m e hL
    simp [readCPU, hL]
  · intro s L e hL
    have hs : s ≠ unlimitedValue := by
      intro hs; rw [hs, parseUint64_unlimited] at hL; exact Option.noConfusion hL
    simp [readMemory, hs, hL]

/-- Witness for C8 at concrete inputs on both branches. -/
theorem read_failure_carries_partial_limit_witness :
    readCPU (.ok "3 3".data) (.error "boom") 7 NewMonitor =
      ⟨.fin 0, .fin 1, some "boom", NewMonitor⟩
    ∧ readMemory (.ok "1024".data) (.error "gone") =
      ⟨.fin 0, 0, 1024, some "gone"⟩ := by
  constructor
  · have hL : parseCpuLimitCores ("3 3".data) = some 1 := by
      have hf : goFields ("3 3".data) = [['3'], ['3']] := by decide
      have h3 : parseInt64 ['3'] = some 3 := by decide
      have hne : ¬ (['3'] : List Char) = unlimitedValue := by decide
      simp [parseCpuLimitCores, hf, h3, hne]
    exact read_failure_carries_partial_limit.1 _ _ 7 NewMonitor "boom" hL
  · exact read_failure_carries_partial_limit.2 _ 1024 "gone" (by decide)

/-- A computed `cpuLimitCores` is never zero: the guards force a positive
quota and a nonzero period. -/
theorem parseCpuLimitCores_ne_zero {s : List Char} {L : ℚ}
    (h : parseCpuLimitCores s = some L) : L ≠ 0 := by
  unfold parseCpuLimitCores at h
  split at h
  · split at h
    · exact Option.noConfusion h
    · split at h
      · exact Option.noConfusion h
      · rename_i quota hq
        split at h
        · exact Option.noConfusion h
        · rename_i hqpos
          split at h
          · exact Option.noConfusion h
          · rename_i period hp
            split at h
            · exact Option.noConfusion h
            · rename_i hpnz
              obtain rfl := Option.some.inj h
              refine div_ne_zero ?_ ?_
              · exact_mod_cast (by omega : quota ≠ 0)
              · exact_mod_cast hpnz
  · exact Option.noConfusion h

/-- C4 counterexample: a `memory.max` payload that parses as the integer 0 is
accepted by `readMemory`, whose percentage computation then divides by zero
and returns positive infinity, not a finite number. -/
theorem readMemory_zero_limit_not_finite :
    parseUint64 "0".data = some 0
    ∧ (readMemory (.ok "0".data) (.ok "5".data)).percent = GFloat.inf false
    ∧ (readMemory (.ok "0".data) (.ok "5".data)).percent.isFinite = false := by
  refine ⟨by decide, ?_, ?_⟩ <;> decide

/-- C4 amended: `readMemory`'s percent is finite whenever the limit payload
does not parse to the integer 0, and `readCPU`'s percent is finite whenever
the elapsed duration since the stored sample is either exactly zero or
truncates to a nonzero count of microseconds (both divisors are then
nonzero). -/
theorem engine_percent_finite :
    (∀ (a b : Except String (List Char)),
        (∀ s, a = Except.ok s → parseUint64 s ≠ some 0) →
        (readMemory a b).percent.isFinite = true)
    ∧ (∀ (a b : Except String (List Char)) (now : ℤ) (m : Monitor),
        (now - m.lastCPUSampleTime = 0 ∨
          goDurationMicroseconds (now - m.lastCPUSampleTime) ≠ 0) →
        (readCPU a b now m).percent.isFinite = true) := by
  constructor
  · intro a b h
    cases a with
    | error e => simp [readMemory, GFloat.isFinite]
    | ok s =>
      by_cases hs : s = unlimitedValue
      · simp [readMemory, hs, GFloat.isFinite]
      · cases hp : parseUint64 s with
        | none => simp [readMemory, hs, hp, GFloat.isFinite]
        | some L =>
          have hL0 : L ≠ 0 := by
            intro hL0; exact h s rfl (hL0 ▸ hp)
          have hLq : ((L : ℚ)) ≠ 0 := Nat.cast_ne_zero.mpr hL0
          cases b with
          | error e => simp [readMemory, hs, hp, GFloat.isFinite]
          | ok cur =>
            cases hc : parseUint64 cur with
            | none => simp [readMemory, hs, hp, hc, GFloat.isFinite]
            | some U =>
              simp [readMemory, hs, hp, hc, GFloat.div, GFloat.mul, hLq,
                GFloat.isFinite]
  · intro a b now m h
    cases a with
    | error e => simp [readCPU, GFloat.isFinite]
    | ok s =>
      cases hL : parseCpuLimitCores s with
      | none => simp [readCPU, hL, GFloat.isFinite]
      | some L =>
        cases b with
        | error e => simp [readCPU, hL, GFloat.isFinite]
        | ok t =>
          simp only [readCPU, hL]
          unfold sampleCPU
          cases hb : m.hasBaseline with
          | false => simp [GFloat.isFinite]
          | true =>
            simp only [Bool.not_true, Bool.false_eq_true, if_false]
            by_cases hu : parseCPUStatUsage t < m.lastCPUUsageUsec
            · simp [hu, GFloat.isFinite]
            · by_cases ht : now - m.lastCPUSampleTime = 0
              · simp [hu, ht, GFloat.isFinite]
              · have hms : goDurationMicroseconds (now - m.lastCPUSampleTime) ≠ 0 :=
                  h.resolve_left ht
                have hmq : ((goDurationMicroseconds (now - m.lastCPUSampleTime) : ℤ) : ℚ) ≠ 0 :=
                  Int.cast_ne_zero.mpr hms
                have hLq : (L : ℚ) ≠ 0 := parseCpuLimitCores_ne_zero hL
                simp [hu, ht, GFloat.div, GFloat.mul, hmq, hLq, GFloat.isFinite]

/-- Witness for C4's amended statement at concrete inputs on both branches. -/
theorem engine_percent_finite_witness :
    (readMemory (.ok "100".data) (.ok "50".data)).percent.isFinite = true
    ∧ (readCPU (.ok "3 3".data) (.ok "usage_usec 9".data) 2000 NewMonitor).percent.isFinite
        = true := by
  constructor
  · exact engine_percent_finite.1 _ _ (by intro s hs; cases hs; decide)
  · exact engine_percent_finite.2 _ _ 2000 NewMonitor (Or.inr (by decide))

/-- C1: with a valid CPU limit and a readable `cpu.stat`, a `readCPU` call
with no baseline yet, or whose usage counter is below the stored one, records
`(usage, now)` as the baseline (with `hasBaseline` set) and returns
`percent = 0` with the computed `limitCores`. -/
theorem readCPU_baseline_establish (cpuMax cpuStat : List Char) (now : ℤ)
    (m : Monitor) (L : ℚ)
    (hL : parseCpuLimitCores cpuMax = some L)
    (hbase : m.hasBaseline = false
      ∨ parseCPUStatUsage cpuStat < m.lastCPUUsageUsec) :
    readCPU (.ok cpuMax) (.ok cpuStat) now m =
      ⟨.fin 0, .fin L, none, ⟨parseCPUStatUsage cpuStat, now, true⟩⟩ := by
  simp only [readCPU, hL]
  unfold sampleCPU
  rcases hbase with hb | hlt
  · simp [hb]
  · cases hb : m.hasBaseline with
    | false => simp
    | true => simp [hlt]

/-- Witness for C1 on a fresh monitor: the first sample returns 0 percent
and stores `(usage, now)`. -/
theorem readCPU_baseline_establish_witness :
    readCPU (.ok "100000 200000".data) (.ok "usage_usec 5".data) 7 NewMonitor =
      ⟨.fin 0, .fin (1 / 2), none, ⟨5, 7, true⟩⟩ := by
  have hL : parseCpuLimitCores ("100000 200000".data) = some (1 / 2) := by
    have hf : goFields ("100000 200000".data) = ["100000".data, "200000".data] := by
      decide
    have h0 : parseInt64 ("100000".data) = some 100000 := by decide
    have h1 : parseInt64 ("200000".data) = some 200000 := by decide
    have hne : ¬ ("100000".data = unlimitedValue) := by decide
    simp [parseCpuLimitCores, hf, h0, h1, hne]
    norm_num
  have h := readCPU_baseline_establish ("100000 200000".data)
    ("usage_usec 5".data) 7 NewMonitor (1 / 2) hL (Or.inl rfl)
  rw [h, show parseCPUStatUsage ("usage_usec 5".data) = 5 from by decide]

/-- C2 counterexample: with one core of limit, a baseline at counter 0 and
time 0, and a new sample at `now = 500` nanoseconds, the elapsed time is zero
microseconds, yet `readCPU` does not return 0: the `timeDelta == 0` guard
compares nanoseconds, so the code divides by the truncated microsecond count
0 and the percent is positive infinity. -/
theorem readCPU_zero_micros_counterexample :
    goDurationMicroseconds ((500 : ℤ) - (Monitor.mk 0 0 true).lastCPUSampleTime) = 0
    ∧ (readCPU (.ok "100000 100000".data) (.ok "usage_usec 1000".data) 500
        (Monitor.mk 0 0 true)).percent = GFloat.inf false := by
  constructor
  · decide
  · have hL : parseCpuLimitCores ("100000 100000".data) = some 1 := by
      have hf : goFields ("100000 100000".data) = ["100000".data, "100000".data] := by
        decide
      have h0 : parseInt64 ("100000".data) = some 100000 := by decide
      have hne : ¬ ("100000".data = unlimitedValue) := by decide
      simp [parseCpuLimitCores, hf, h0, hne]
    simp only [readCPU, hL]
    decide

/-- C2 amended: the division guard fires on an elapsed duration of exactly
zero (zero nanoseconds, the unit the code compares in): then `readCPU`
returns `percent = 0` with the limit and no state change.  An elapsed
duration that is positive but below one microsecond passes the guard,
truncates to zero microseconds, and divides by it (see the
counterexample). -/
theorem readCPU_zero_elapsed_guard (cpuMax cpuStat : List Char) (now : ℤ)
    (m : Monitor) (L : ℚ)
    (hL : parseCpuLimitCores cpuMax = some L)
    (hb : m.hasBaseline = true)
    (hu : ¬ parseCPUStatUsage cpuStat < m.lastCPUUsageUsec)
    (ht : now - m.lastCPUSampleTime = 0) :
    readCPU (.ok cpuMax) (.ok cpuStat) now m = ⟨.fin 0, .fin L, none, m⟩ := by
  simp only [readCPU, hL]
  unfold sampleCPU
  simp [hb, hu, ht]

/-- Witness for C2's amended statement: two samples at the same instant give
0 percent and leave the state alone. -/
theorem readCPU_zero_elapsed_guard_witness :
    readCPU (.ok "3 3".data) (.ok "usage_usec 5".data) 7 (Monitor.mk 5 7 true) =
      ⟨.fin 0, .fin 1, none, Monitor.mk 5 7 true⟩ := by
  have hL : parseCpuLimitCores ("3 3".data) = some 1 := by
    have hf : goFields ("3 3".data) = [['3'], ['3']] := by decide
    have h3 : parseInt64 ['3'] = some 3 := by decide
    have hne : ¬ (['3'] : List Char) = unlimitedValue := by decide
    simp [parseCpuLimitCores, hf, h3, hne]
  exact readCPU_zero_elapsed_guard ("3 3".data) ("usage_usec 5".data) 7
    (Monitor.mk 5 7 true) 1 hL rfl (by decide) (by decide)

/-- C3 counterexample: a `readCPU` call on a fresh monitor whose `cpu.max`
holds the `max` sentinel completes successfully (no error), yet
`hasBaseline` stays false — so `hasBaseline` is not "false exactly until the
first CPU read that completes successfully". -/
theorem readCPU_success_without_baseline :
    (readCPU (.ok "max 100000".data) (.ok "usage_usec 5".data) 0 NewMonitor).err
        = none
    ∧ (readCPU (.ok "max 100000".data) (.ok "usage_usec 5".data) 0
        NewMonitor).state.hasBaseline = false := by
  constructor <;> decide

/-- C3 amended: `hasBaseline` starts false on a new monitor, and after any
`readCPU` call it equals `hasBaseline || reachesSampling` — it becomes true
exactly on the first call that reaches the sampling stage (valid limit and
readable stat file) and then stays true; and the stored counter/time pair is
either left untouched or overwritten together with `(usage, now)`. -/
theorem monitor_baseline_invariant (a b : Except String (List Char))
    (now : ℤ) (m : Monitor) :
    ((readCPU a b now m).state.hasBaseline
        = (m.hasBaseline || reachesSampling a b))
    ∧ (((readCPU a b now m).state.lastCPUUsageUsec = m.lastCPUUsageUsec
          ∧ (readCPU a b now m).state.lastCPUSampleTime = m.lastCPUSampleTime)
        ∨ (∃ t, b = Except.ok t
            ∧ (readCPU a b now m).state.lastCPUUsageUsec = parseCPUStatUsage t
            ∧ (readCPU a b now m).state.lastCPUSampleTime = now))
    ∧ NewMonitor.hasBaseline = false := by
  refine ⟨?_, ?_, rfl⟩ <;>
  · cases a with
    | error e => simp [readCPU, reachesSampling]
    | ok s =>
      cases hL : parseCpuLimitCores s with
      | none => cases b <;> simp [readCPU, reachesSampling, hL]
      | some L =>
        cases b with
        | error e => simp [readCPU, reachesSampling, hL]
        | ok t =>
          simp only [readCPU, reachesSampling, hL, Option.isSome_some,
            Bool.or_true]
          unfold sampleCPU
          cases hb : m.hasBaseline with
          | false => simp
          | true =>
            by_cases hu : parseCPUStatUsage t < m.lastCPUUsageUsec
            · simp [hu]
            · by_cases ht : now - m.lastCPUSampleTime = 0
              · simp [hu, ht, hb]
              · simp [hu, ht, hb]

/-- C5: a `cpu.max` payload whose quota token is the `max` sentinel, or
whose quota parses to a value at most 0, or whose period token parses to 0,
makes `readCPU` return `(0, 0)` with no error (and no state change),
whatever the `cpu.stat` read result. -/
theorem readCPU_no_limit (cpuMax : List Char)
    (b : Except String (List Char)) (now : ℤ) (m : Monitor)
    (h : (goFields cpuMax).head? = some unlimitedValue
      ∨ (∃ p0 q, (goFields cpuMax).head? = some p0
          ∧ parseInt64 p0 = some q ∧ q ≤ 0)
      ∨ (∃ p1, (goFields cpuMax)[1]? = some p1 ∧ parseInt64 p1 = some 0)) :
    readCPU (.ok cpuMax) b now m = ⟨.fin 0, .fin 0, none, m⟩ := by
  suffices hnone : parseCpuLimitCores cpuMax = none by
    cases b <;> simp [readCPU, hnone]
  rcases hgf : goFields cpuMax with _ | ⟨p0, _ | ⟨p1, _ | ⟨x, xs⟩⟩⟩
  · simp [parseCpuLimitCores, hgf]
  · simp [parseCpuLimitCores, hgf]
  · rw [hgf] at h
    rcases h with h | ⟨p0h, q, hp0, hq, hqle⟩ | ⟨p1h, hp1, hp10⟩
    · simp only [List.head?_cons, Option.some.injEq] at h
      simp [parseCpuLimitCores, hgf, h]
    · simp only [List.head?_cons, Option.some.injEq] at hp0
      subst hp0
      by_cases hmax : p0 = unlimitedValue
      · simp [parseCpuLimitCores, hgf, hmax]
      · simp [parseCpuLimitCores, hgf, hmax, hq, hqle]
    · simp only [List.getElem?_cons_succ, List.getElem?_cons_zero,
        Option.some.injEq] at hp1
      subst hp1
      by_cases hmax : p0 = unlimitedValue
      · simp [parseCpuLimitCores, hgf, hmax]
      · cases hq : parseInt64 p0 with
        | none => simp [parseCpuLimitCores, hgf, hmax, hq]
        | some q =>
          by_cases hqle : q ≤ 0
          · simp [parseCpuLimitCores, hgf, hmax, hq, hqle]
          · simp [parseCpuLimitCores, hgf, hmax, hq, hqle, hp10]
  · simp [parseCpuLimitCores, hgf]

/-- Witness for C5: `cpu.max = "max 100000"` gives `(0, 0)` and no error. -/
theorem readCPU_no_limit_witness :
    readCPU (.ok "max 100000".data) (.ok "usage_usec 5".data) 7 NewMonitor =
      ⟨.fin 0, .fin 0, none, NewMonitor⟩ :=
  readCPU_no_limit ("max 100000".data) (.ok "usage_usec 5".data) 7 NewMonitor
    (Or.inl (by decide))

/-- The stat-scanning loop returns the value of the first well-formed
`usage_usec` line, and 0 when no line is both prefixed and well-formed. -/
theorem cpuStatLoop_findSome (ls : List (List Char)) :
    cpuStatLoop ls = ((ls.findSome? usageLineValue).getD 0) := by
  induction ls with
  | nil => rfl
  | cons line rest ih =>
    rw [cpuStatLoop, List.findSome?_cons]
    by_cases hp : usageUsecKey.isPrefixOf line
    · rw [usageLineValue, if_pos hp]
      simp only [hp, Bool.not_true, Bool.false_eq_true, if_false]
      rcases hgf : goFields line with _ | ⟨x, _ | ⟨p1, _ | _⟩⟩ <;>
        simp only [ih]
      cases hpu : parseUint64 p1 <;> simp [hpu, ih]
    · rw [usageLineValue, if_neg hp]
      simp [hp, ih]

/-- C9: `parseCPUStatUsage` returns the integer value of the (first)
well-formed `usage_usec ` line among the payload's lines, and 0 when no such
line exists — the parse itself never fails the read (it is total). -/
theorem parseCPUStatUsage_scans_lines (content : List Char) :
    parseCPUStatUsage content
      = (((goSplitLines content).findSome? usageLineValue).getD 0) :=
  cpuStatLoop_findSome (goSplitLines content)

/-- C10: every `readCPU` return that neither computes a percentage nor
establishes/resets the baseline leaves the session state untouched: a
`cpu.max` read error, an invalid or absent limit, a `cpu.stat` read error,
and the zero-elapsed-duration branch (which in particular does not refresh
the stored sample time). -/
theorem readCPU_early_return_frame :
    (∀ e b now m, (readCPU (.error e) b now m).state = m)
    ∧ (∀ s b now m, parseCpuLimitCores s = none →
        (readCPU (.ok s) b now m).state = m)
    ∧ (∀ s e now m, (readCPU (.ok s) (.error e) now m).state = m)
    ∧ (∀ s t now m, m.hasBaseline = true →
        ¬ parseCPUStatUsage t < m.lastCPUUsageUsec →
        now - m.lastCPUSampleTime = 0 →
        (readCPU (.ok s) (.ok t) now m).state = m) := by
  refine ⟨fun e b now m => rfl, fun s b now m h => ?_, fun s e now m => ?_,
    fun s t now m hb hu ht => ?_⟩
  · cases b <;> simp [readCPU, h]
  · cases hL : parseCpuLimitCores s <;> simp [readCPU, hL]
  · cases hL : parseCpuLimitCores s with
    | none => simp [readCPU, hL]
    | some L =>
      simp only [readCPU, hL]
      unfold sampleCPU
      simp [hb, hu, ht]

/-- Witness for C10 on its stateful branch: a zero-elapsed sample leaves the
stored counter and sample time exactly as they were. -/
theorem readCPU_early_return_frame_witness :
    (readCPU (.ok "3 3".data) (.ok "usage_usec 9".data) 7
        (Monitor.mk 5 7 true)).state = Monitor.mk 5 7 true :=
  readCPU_early_return_frame.2.2.2 ("3 3".data) ("usage_usec 9".data) 7
    (Monitor.mk 5 7 true) rfl (by decide) (by decide)
